import Mathlib

/-!
# Verification of the Synergy room/round engine

Shallow embedding of `src/Synergy/server/index.js` (the authoritative server of the
Synergy two-party word-matching game) together with proofs settling the frozen claims
about its specification.

Conventions of the embedding:
* JavaScript objects used as string-keyed maps (`rooms`, `room.submissions`) and the
  insertion-ordered `Map`/`Set` values (`room.players`, `room.rematchReady`, the
  `used` set of `getUsedWordsFromHistory`) are modelled as insertion-ordered
  association lists / lists with a "add if absent" insert.
* `setTimeout(cb, d)` armed at instant `now` is modelled by storing the absolute fire
  time `now + d` in the corresponding handle field (`roundTimer`, `afkTimer`);
  `clearTimeout` stores `none`.
* JavaScript string truthiness (`w ? a : b`, `x || y`) is modelled explicitly:
  a string is truthy iff it is nonempty, `null`/`undefined` are `Option.none`.
* The external AI suggestion service (`aiClient.js`) is an external collaborator:
  each embedded entry point that awaits it takes the service outcome as a parameter
  (`Option String`: the first truthy `choice` the call chain produced, `none` when
  every attempt failed or returned a falsy choice, in which case the literal
  `"apple"` fallback of `maybeMakeBotSubmission` applies).
-/

/-- JS `String.prototype.toLowerCase()` on the ASCII fragment relevant to this game:
characterwise lowercasing. (Defined over the character list so that proofs can
evaluate it; `Char.toLower` agrees with JS on ASCII.) -/
def strLower (s : String) : String := ⟨s.data.map Char.toLower⟩

/-- JS `String.prototype.trim()`: strip leading and trailing whitespace. -/
def strTrim (s : String) : String :=
  ⟨((s.data.dropWhile Char.isWhitespace).reverse.dropWhile Char.isWhitespace).reverse⟩

/-- JS `x || d` for a string already known to be present: `d` when `x` is empty. -/
def jsOrS (x d : String) : String := if x = "" then d else x

/-- JS truthiness of a nullable string: `null`/`undefined` and `""` are falsy. -/
def jsTruthyO : Option String → Bool
  | none => false
  | some s => s ≠ ""

/-- Lookup in a string-keyed association list (JS `obj[k]` / `Map.get`,
`undefined ↦ none`; keys are unique, so first-match lookup). -/
def getA {α : Type} : List (String × α) → String → Option α
  | [], _ => none
  | p :: l, k => if p.1 = k then some p.2 else getA l k

/-- Assignment in a string-keyed association list (JS `obj[k] = v` / `Map.set`):
replaces the (unique) entry in place when the key is present, appends otherwise. -/
def setA {α : Type} : List (String × α) → String → α → List (String × α)
  | [], k, v => [(k, v)]
  | p :: l, k, v => if p.1 = k then (k, v) :: l else p :: setA l k v

/-- Deletion from a string-keyed association list (JS `delete obj[k]`). -/
def delA {α : Type} : List (String × α) → String → List (String × α)
  | [], _ => []
  | p :: l, k => if p.1 = k then delA l k else p :: delA l k

/-- JS `Set.add`: append if not already present (insertion-ordered set). -/
def setAdd (l : List String) (w : String) : List String :=
  if w ∈ l then l else l ++ [w]

/-- One `{ id, name, word }` reveal entry (element of `history[i].pairs`). -/
structure Pair where
  id : String
  name : String
  word : String
deriving DecidableEq, Repr

/-- One `history` entry `{ round, pairs }`. -/
structure HistoryEntry where
  round : Nat
  pairs : List Pair
deriving DecidableEq, Repr

/-- The per-room state, translated from the `rooms[code] = { ... }` shape documented
and constructed in `server/index.js`. Timer handles store their absolute fire time. -/
structure Room where
  players : List (String × String)
  submissions : List (String × String)
  history : List HistoryEntry
  status : String
  winnerRound : Option Nat
  rematchReady : List String
  roundTimer : Option Nat
  deadline : Option Nat
  afkTimer : Option Nat
  lastActivity : Nat
  closing : Bool
  ai : Bool
  botId : Option String
  prevBot : Option String
deriving DecidableEq, Repr

/-- The process-wide `rooms` registry: an insertion-ordered map from code to room. -/
abbrev Registry := List (String × Room)

/-- `getRoom(code)` via the registry value. -/
def regLookup (reg : Registry) (code : String) : Option Room := getA reg code

/-- The round sentinel recorded for a slot that did not submit. -/
def noGuess : String := "(no guess)"

/-- `clearRoundTimer(room)` (index.js:77): clears the round timer handle and the deadline. -/
def clearRoundTimer (room : Room) : Room :=
  { room with roundTimer := none, deadline := none }

/-- `clearAfk(room)` (index.js:78). -/
def clearAfk (room : Room) : Room :=
  { room with afkTimer := none }

/-- The room-state effect of `bumpAfk` (index.js:89-97) when the room exists and is not
closing: `touch` updates `lastActivity`, the AFK timer is re-armed for 70 000 ms. -/
def bumpAfkRoom (now : Nat) (room : Room) : Room :=
  { room with lastActivity := now, afkTimer := some (now + 70000) }

/-- `getUsedWordsFromHistory(room)` (index.js:178-187): the lowercased non-sentinel
words of all completed rounds, as an insertion-ordered deduplicated list. The
sentinel skip compares the *original* word to `"(no guess)"` case-sensitively. -/
def getUsedWordsFromHistory (room : Room) : List String :=
  room.history.foldl
    (fun used h =>
      h.pairs.foldl
        (fun used p =>
          if p.word ≠ "" ∧ p.word ≠ noGuess then setAdd used (strLower p.word) else used)
        used)
    []

/-- `getPrevRoundWords(room)` (index.js:190-199): the last history entry's words,
split on whether the slot id is the bot id. Returns `(none, none)` for an empty
history. No validity filtering is applied to the returned words. -/
def getPrevRoundWords (room : Room) : Option String × Option String :=
  match room.history.getLast? with
  | none => (none, none)
  | some last =>
      last.pairs.foldl
        (fun (acc : Option String × Option String) p =>
          if room.botId = some p.id then (acc.1, some p.word) else (some p.word, acc.2))
        (none, none)

/-- The `unique` set of `new Set(pairs.map(p => strLower p.wordCase()))`. -/
def uniqueLower (pairs : List Pair) : List String :=
  (pairs.map (fun p => strLower p.word)).foldl setAdd []

/-- `allReal` (index.js:159/340): every word truthy and not the sentinel
(case-insensitively). -/
def allReal (pairs : List Pair) : Bool :=
  pairs.all (fun p => p.word ≠ "" && strLower p.word ≠ noGuess)

/-- The win condition `allReal && unique.size === 1` shared by both resolution paths. -/
def winCheck (pairs : List Pair) : Bool :=
  allReal pairs && (uniqueLower pairs).length = 1

/-- `startRound(code)` (index.js:128-139), room-state part: guarded on a live playing
room; resets submissions, sets the deadline, then `clearRoundTimer` (which nulls the
deadline again) and arms the round timer for 30 000 ms. The timer callback body is
modelled separately (`roundTimerFire`). -/
def startRound (now : Nat) (room : Room) : Room :=
  if room.closing ∨ room.status ≠ "playing" then room
  else
    let r1 := { room with submissions := [], deadline := some (now + 30000) }
    let r2 := clearRoundTimer r1
    { r2 with roundTimer := some (now + 30000) }

/-- The bot slot's current submission, `room.submissions[room.botId]`. -/
def botSubmission (room : Room) : Option String :=
  room.botId.bind (fun b => getA room.submissions b)

/-- The word `maybeMakeBotSubmission` (index.js:99-124) finally records: the first
truthy `choice` its AI call chain produced, or the literal `"apple"` fallback. -/
def botWordOf (aiChoice : Option String) : String :=
  match aiChoice with
  | some w => jsOrS w "apple"
  | none => "apple"

/-- `maybeMakeBotSubmission(room)` (index.js:99-124), with the external AI call chain
summarised by its outcome `aiChoice` (see the module conventions). Effect: records the
resulting word as the bot slot's submission and remembers it in `prevBot`. The word is
recorded without any validation against the room's history; `getUsedWordsFromHistory`
is only *sent* to the external service as an exclusion hint. (In the `catch` branch
the code records the fallback word without updating `prevBot`; the claims settled here
do not depend on `prevBot`, so the non-throwing shape is the one embedded.) -/
def maybeMakeBotSubmission (aiChoice : Option String) (room : Room) : Room :=
  let botWord := botWordOf aiChoice
  { room with
      submissions := setA room.submissions (room.botId.getD "") botWord,
      prevBot := some botWord }

/-- The request `maybeMakeBotSubmission` issues to the AI service (index.js:102-112):
a plain random-word request when both previous words are falsy, otherwise a
next-word request carrying the previous round's words verbatim as context. -/
inductive AiRequest where
  | random (excludeList : List String)
  | withPrev (prevHuman prevBot : Option String) (excludeList : List String)
deriving DecidableEq, Repr

/-- Which AI request `maybeMakeBotSubmission` makes for a given room state. -/
def botRequestOf (room : Room) : AiRequest :=
  let exclude := getUsedWordsFromHistory room
  let prev := getPrevRoundWords room
  if ¬ jsTruthyO prev.1 ∧ ¬ jsTruthyO prev.2 then .random exclude
  else .withPrev prev.1 prev.2 exclude

/-- The reveal pairs built by the round-timer callback (index.js:148-152): every
player slot, with a missing or falsy submission replaced by the sentinel. -/
def timerPairs (room : Room) : List Pair :=
  room.players.map (fun pl =>
    { id := pl.1
      name := jsOrS pl.2 "Player"
      word :=
        match getA room.submissions pl.1 with
        | some w => jsOrS w noGuess
        | none => noGuess })

/-- The portion of the round-timer callback *after* its `await` on the AI call
(index.js:147-172). Note that it re-reads `history.length` but does **not** re-check
`status`/`closing`: it unconditionally appends a history entry and runs the win
check, then either marks the room won or starts the next round. -/
def timerRest (now : Nat) (room : Room) : Room :=
  let roundNum := room.history.length + 1
  let pairs := timerPairs room
  let r := { room with history := room.history ++ [{ round := roundNum, pairs := pairs }] }
  if winCheck pairs then
    clearRoundTimer { r with status := "won", winnerRound := some roundNum }
  else
    startRound now r

/-- Whether the timer callback (resp. the submit handler) must await a bot
submission first: `room.ai && !room.submissions[room.botId]` (index.js:143/321). -/
def needsBotSubmission (room : Room) : Bool :=
  room.ai && !(jsTruthyO (botSubmission room))

/-- The full round-timer callback (index.js:139-173) in the case where the awaited AI
call (if any) completes without interference from other events; `aiChoice` is the AI
chain's outcome. The initial guard re-checks that the room is live and playing. -/
def roundTimerFire (now : Nat) (aiChoice : Option String) (room : Room) : Room :=
  if room.closing ∨ room.status ≠ "playing" then room
  else
    let r := if needsBotSubmission room then maybeMakeBotSubmission aiChoice room else room
    timerRest now r

/-- Acknowledgement results of the `game:submit` handler (index.js:301-311). -/
inductive SubmitAck where
  | noRoom
  | notActive
  | notInRoom
  | emptyWord
  | usedEarlier
  | ok
deriving DecidableEq, Repr

/-- The `game:submit` handler up to (and excluding) its `await` on the AI call
(index.js:297-318): guard checks, trimming, the empty-word check, the
duplicate-of-history check, recording the sender's submission, and `bumpAfk`. -/
def submitPhase1 (now : Nat) (senderId word : String) (room : Room) :
    Room × SubmitAck :=
  if room.closing then (room, .noRoom)
  else if room.status ≠ "playing" then (room, .notActive)
  else if ¬ room.players.any (fun p => p.1 = senderId) then (room, .notInRoom)
  else
    let clean := strTrim word
    if clean = "" then (room, .emptyWord)
    else if strLower clean ∈ getUsedWordsFromHistory room then (room, .usedEarlier)
    else
      let r := { room with submissions := setA room.submissions senderId clean }
      (bumpAfkRoom now r, .ok)

/-- The reveal pairs built by the submit path (index.js:328-332): every player slot
with its recorded submission (all present when this code runs; a structurally missing
entry is totalised to `""`). -/
def submitPairs (room : Room) : List Pair :=
  room.players.map (fun pl =>
    { id := pl.1
      name := jsOrS pl.2 "Player"
      word := (getA room.submissions pl.1).getD "" })

/-- The portion of the `game:submit` handler after its (possible) `await` on the AI
call (index.js:326-354): when every player slot has a submission, cancel the round
timer, append the history entry, and either mark the room won or start the next
round; otherwise leave the room unchanged (only a waiting notice is emitted). -/
def submitPhase2 (now : Nat) (room : Room) : Room :=
  if room.submissions.length = room.players.length then
    let roundNum := room.history.length + 1
    let pairs := submitPairs room
    let r0 := clearRoundTimer room
    let r := { r0 with history := r0.history ++ [{ round := roundNum, pairs := pairs }] }
    if winCheck pairs then
      { r with status := "won", winnerRound := some roundNum }
    else
      startRound now r
  else room

/-- The whole `game:submit` handler (index.js:297-355) in the case where the awaited
AI call (if any) completes without interference from other events. -/
def gameSubmit (now : Nat) (senderId word : String) (aiChoice : Option String)
    (room : Room) : Room × SubmitAck :=
  let step1 := submitPhase1 now senderId word room
  if step1.2 = .ok then
    let r2 := if needsBotSubmission step1.1 then maybeMakeBotSubmission aiChoice step1.1
              else step1.1
    (submitPhase2 now r2, .ok)
  else step1

/-- The `game:rematch:ready` handler (index.js:357-396), room-state part. An AI room
restarts on any ready signal; a two-human room adds the sender to the ballot and
restarts exactly when the ballot size reaches 2. -/
def rematchReadyHandler (now : Nat) (socketId : String) (room : Room) : Room :=
  if room.closing then room
  else if room.status ≠ "won" then room
  else if room.ai then
    startRound now
      { room with
          history := [], submissions := [], status := "playing",
          winnerRound := none, rematchReady := [], prevBot := none }
  else if room.players.length ≠ 2 then room
  else
    let r0 := { room with rematchReady := setAdd room.rematchReady socketId }
    let r1 := bumpAfkRoom now r0
    if r1.rematchReady.length = 2 then
      startRound now
        { r1 with
            history := [], submissions := [], status := "playing",
            winnerRound := none, rematchReady := [] }
    else r1

/-- `closeRoom(code, ...)` (index.js:79-87): mark the room closing, cancel both
timers, notify members, and delete the registry entry. The second component is the
final (discarded) room value, exposing that no timer survives teardown. -/
def closeRoom (code : String) (reg : Registry) : Registry × Option Room :=
  match regLookup reg code with
  | none => (reg, none)
  | some room =>
      let r := clearAfk (clearRoundTimer { room with closing := true })
      (delA reg code, some r)

/-- The AFK timer callback armed by `bumpAfk` (index.js:93-96): skip missing,
closing, or won rooms, otherwise close for inactivity. -/
def afkTimerFire (code : String) (reg : Registry) : Registry :=
  match regLookup reg code with
  | none => reg
  | some r =>
      if r.closing then reg
      else if r.status = "won" then reg
      else (closeRoom code reg).1

/-- One iteration of the AFK sweep body (index.js:204-213) for a single code. -/
def sweepStep (now : Nat) (acc : Registry) (code : String) : Registry :=
  match regLookup acc code with
  | none => acc
  | some room =>
      if room.closing then acc
      else if room.status = "won" then acc
      else if 70000 ≤ now - room.lastActivity then (closeRoom code acc).1
      else acc

/-- The periodic AFK sweep (index.js:202-214): iterate over a snapshot of the
registry's codes, closing each room idle for at least the 70 000 ms window. -/
def afkSweep (now : Nat) (reg : Registry) : Registry :=
  (reg.map (fun p => p.1)).foldl (sweepStep now) reg

/-- The blank room object allocated by the `room:create` handler (index.js:224-239). -/
def blankHumanRoom (now : Nat) : Room :=
  { players := [], submissions := [], history := [], status := "lobby",
    winnerRound := none, rematchReady := [], roundTimer := none, deadline := none,
    afkTimer := none, lastActivity := now, closing := false, ai := false,
    botId := none, prevBot := none }

/-- The blank room object allocated by the `room:create:ai` handler
(index.js:253-268): starts in `playing` with the bot id derived from the code. -/
def blankAiRoom (now : Nat) (code : String) : Room :=
  { players := [], submissions := [], history := [], status := "playing",
    winnerRound := none, rematchReady := [], roundTimer := none, deadline := none,
    afkTimer := none, lastActivity := now, closing := false, ai := true,
    botId := some ("bot:" ++ code), prevBot := none }

/-- The `room:create` handler (index.js:222-247) with the `nanoid()` output passed in
as `code`: the new room is stored at `code` *unconditionally* — there is no
membership check of `code` against the registry and no retry — then the creator is
added as a player and `bumpAfk` arms the inactivity timer. -/
def roomCreate (code : String) (now : Nat) (socketId name : String)
    (reg : Registry) : Registry :=
  let reg1 := setA reg code (blankHumanRoom now)
  let reg2 :=
    match regLookup reg1 code with
    | some r =>
        setA reg1 code { r with players := setA r.players socketId (jsOrS (strTrim name) "Player") }
    | none => reg1
  match regLookup reg2 code with
  | some r => if r.closing then reg2 else setA reg2 code (bumpAfkRoom now r)
  | none => reg2

/-- The `room:create:ai` handler (index.js:250-277) with the `nanoid()` output passed
in as `code`: unconditional store, then the creator and the bot join, then
`startRound`. (No `bumpAfk` on this path.) -/
def roomCreateAi (code : String) (now : Nat) (socketId name : String)
    (reg : Registry) : Registry :=
  let botId := "bot:" ++ code
  let reg1 := setA reg code (blankAiRoom now code)
  let reg2 :=
    match regLookup reg1 code with
    | some r =>
        setA reg1 code
          { r with players := setA (setA r.players socketId (jsOrS (strTrim name) "Player")) botId "AI" }
    | none => reg1
  match regLookup reg2 code with
  | some r => setA reg2 code (startRound now r)
  | none => reg2

/-- The `game:submit` handler at registry level: a missing (e.g. closed) room is
acknowledged with "No room" and nothing is mutated. -/
def gameSubmitReg (now : Nat) (code senderId word : String) (aiChoice : Option String)
    (reg : Registry) : Registry × SubmitAck :=
  match regLookup reg code with
  | none => (reg, .noRoom)
  | some room =>
      let res := gameSubmit now senderId word aiChoice room
      (setA reg code res.1, res.2)

/-! ## Concrete states used to settle the claims

Each `cN...` value is a reachable state of the server used as an input for claim CN:
a room is brought to such a state by the handler sequence described in its doc
comment. -/

/-- C1 failing input: an AI room in round 1 (`room:create:ai` then `startRound`; the
round timer was armed at instant 1000, so it fires at 31000), with no submissions
yet. -/
def c1Room : Room :=
  { players := [("H1", "Alice"), ("bot:R", "AI")], submissions := [], history := [],
    status := "playing", winnerRound := none, rematchReady := [], roundTimer := some 31000,
    deadline := none, afkTimer := some 70000, lastActivity := 990, closing := false,
    ai := true, botId := some "bot:R", prevBot := none }

/-- C1 schedule, step 1: the human submits "apple" at 30990, just before the round
timer fires; the handler records it and then suspends awaiting the AI service. -/
def c1AfterHumanSubmit : Room := (submitPhase1 30990 "H1" "apple" c1Room).1

/-- C1 schedule, steps 2-3: the round timer fires at 31000 while the submit handler
is suspended (its guards pass on `c1AfterHumanSubmit`, see the claim theorem), and
itself suspends awaiting a second AI request. The submit handler's AI response
("apple") then arrives first and the submit path resolves round 1. -/
def c1AfterSubmitResolve : Room :=
  submitPhase2 32000 (maybeMakeBotSubmission (some "apple") c1AfterHumanSubmit)

/-- C1 schedule, step 4: the timer callback's own AI response arrives and the
callback resumes (index.js:147-172) without re-checking the room status. -/
def c1AfterTimerResume : Room :=
  timerRest 33000 (maybeMakeBotSubmission (some "apple") c1AfterSubmitResolve)

/-- C2 witness input: a two-human room in round 1 (created, second player joined,
`startRound` armed the round timer at instant 0). -/
def c2Room : Room :=
  { players := [("A", "Ann"), ("B", "Ben")], submissions := [], history := [],
    status := "playing", winnerRound := none, rematchReady := [], roundTimer := some 30000,
    deadline := none, afkTimer := some 70000, lastActivity := 0, closing := false,
    ai := false, botId := none, prevBot := none }

/-- C3 counterexample input: an AI room in round 2 whose completed round 1 used
"apple" for the bot slot; the human has submitted "sea" for round 2 and the bot
submission is pending. -/
def c3Room : Room :=
  { players := [("H", "Ann"), ("bot:C3", "AI")], submissions := [("H", "sea")],
    history := [{ round := 1,
                  pairs := [{ id := "H", name := "Ann", word := "river" },
                            { id := "bot:C3", name := "AI", word := "apple" }] }],
    status := "playing", winnerRound := none, rematchReady := [], roundTimer := some 61000,
    deadline := none, afkTimer := some 101000, lastActivity := 31000, closing := false,
    ai := true, botId := some "bot:C3", prevBot := some "apple" }

/-- C3 witness input: a two-human room in round 2; the partner `B` has already
submitted "echo" for the current round. -/
def c3RoomW : Room :=
  { players := [("A", "Ann"), ("B", "Ben")], submissions := [("B", "echo")],
    history := [{ round := 1,
                  pairs := [{ id := "A", name := "Ann", word := "river" },
                            { id := "B", name := "Ben", word := "sea" }] }],
    status := "playing", winnerRound := none, rematchReady := [], roundTimer := some 61000,
    deadline := none, afkTimer := some 101000, lastActivity := 31000, closing := false,
    ai := false, botId := none, prevBot := none }

/-- C4 input: an AI room in round 2 whose round 1 timed out for the human, so the
last history entry records the sentinel for the human slot. -/
def c4Room : Room :=
  { players := [("H", "Ann"), ("bot:C4", "AI")], submissions := [],
    history := [{ round := 1,
                  pairs := [{ id := "H", name := "Ann", word := "(no guess)" },
                            { id := "bot:C4", name := "AI", word := "apple" }] }],
    status := "playing", winnerRound := none, rematchReady := [], roundTimer := some 61000,
    deadline := none, afkTimer := some 101000, lastActivity := 31000, closing := false,
    ai := true, botId := some "bot:C4", prevBot := some "apple" }

/-- C5 input: an existing live room occupying the code "AAAAAA". -/
def c5OldRoom : Room :=
  { players := [("X", "Old")], submissions := [],
    history := [{ round := 1, pairs := [{ id := "X", name := "Old", word := "legacy" }] }],
    status := "playing", winnerRound := none, rematchReady := [], roundTimer := some 30000,
    deadline := none, afkTimer := some 70000, lastActivity := 0, closing := false,
    ai := false, botId := none, prevBot := none }

/-- C5 input: a registry in which "AAAAAA" is already taken. -/
def c5Reg : Registry := [("AAAAAA", c5OldRoom)]

/-- C6 witness input: a lobby room idle since instant 100. -/
def c6Room : Room :=
  { players := [("A", "Ann")], submissions := [], history := [],
    status := "lobby", winnerRound := none, rematchReady := [], roundTimer := none,
    deadline := none, afkTimer := some 70100, lastActivity := 100, closing := false,
    ai := false, botId := none, prevBot := none }

/-- C6 witness input: the registry holding only the idle room. -/
def c6Reg : Registry := [("ROOM66", c6Room)]

/-- C7 witness input: an AI room that has just been won in round 1. -/
def c7AiRoom : Room :=
  { players := [("H", "Ann"), ("bot:C7", "AI")],
    submissions := [("H", "star"), ("bot:C7", "star")],
    history := [{ round := 1,
                  pairs := [{ id := "H", name := "Ann", word := "star" },
                            { id := "bot:C7", name := "AI", word := "star" }] }],
    status := "won", winnerRound := some 1, rematchReady := [], roundTimer := none,
    deadline := none, afkTimer := some 99999, lastActivity := 5000, closing := false,
    ai := true, botId := some "bot:C7", prevBot := some "star" }

/-- C7 witness input: a won two-human room in which `A` has already voted for a
rematch. -/
def c7HumanRoom : Room :=
  { players := [("A", "Ann"), ("B", "Ben")],
    submissions := [("A", "star"), ("B", "star")],
    history := [{ round := 1,
                  pairs := [{ id := "A", name := "Ann", word := "star" },
                            { id := "B", name := "Ben", word := "star" }] }],
    status := "won", winnerRound := some 1, rematchReady := ["A"], roundTimer := none,
    deadline := none, afkTimer := some 99999, lastActivity := 5000, closing := false,
    ai := false, botId := none, prevBot := none }

/-- C8 input: a two-human room reaching its round-1 deadline with only `A`
submitted, so the timer resolution is a non-win. -/
def c8Room : Room :=
  { players := [("A", "Ann"), ("B", "Ben")], submissions := [("A", "alpha")],
    history := [], status := "playing", winnerRound := none, rematchReady := [],
    roundTimer := none, deadline := none, afkTimer := some 70000, lastActivity := 0,
    closing := false, ai := false, botId := none, prevBot := none }

/-- C9 witness input: a won two-human room that has been idle far longer than the
inactivity window. -/
def c9Room : Room :=
  { players := [("A", "Ann"), ("B", "Ben")],
    submissions := [("A", "star"), ("B", "star")],
    history := [{ round := 1,
                  pairs := [{ id := "A", name := "Ann", word := "star" },
                            { id := "B", name := "Ben", word := "star" }] }],
    status := "won", winnerRound := some 1, rematchReady := [], roundTimer := none,
    deadline := none, afkTimer := some 99999, lastActivity := 0, closing := false,
    ai := false, botId := none, prevBot := none }

/-- C9 witness input: the registry holding the long-idle won room. -/
def c9Reg : Registry := [("WINNER", c9Room)]

/-- C10 counterexample input: a two-human room whose completed round 1 recorded the
mixed-case word "(No Guess)" typed by a player (accepted in round 1, as no sentinel
was in history yet). -/
def c10Room : Room :=
  { players := [("A", "Ann"), ("B", "Ben")], submissions := [],
    history := [{ round := 1,
                  pairs := [{ id := "A", name := "Ann", word := "(No Guess)" },
                            { id := "B", name := "Ben", word := "tree" }] }],
    status := "playing", winnerRound := none, rematchReady := [], roundTimer := some 61000,
    deadline := none, afkTimer := some 101000, lastActivity := 31000, closing := false,
    ai := false, botId := none, prevBot := none }

/-- C10 witness input: like `c10Room` but round 1 recorded the exact lowercase
sentinel (the shape auto-fill produces). -/
def c10RoomW : Room :=
  { players := [("A", "Ann"), ("B", "Ben")], submissions := [],
    history := [{ round := 1,
                  pairs := [{ id := "A", name := "Ann", word := "(no guess)" },
                            { id := "B", name := "Ben", word := "tree" }] }],
    status := "playing", winnerRound := none, rematchReady := [], roundTimer := some 61000,
    deadline := none, afkTimer := some 101000, lastActivity := 31000, closing := false,
    ai := false, botId := none, prevBot := none }

/-! ## Basic lemmas about the map/set primitives -/

theorem getA_setA_self {α : Type} (l : List (String × α)) (k : String) (v : α) :
    getA (setA l k v) k = some v := by
  induction l with
  | nil => simp [setA, getA]
  | cons p l ih =>
    by_cases hp : p.1 = k
    · simp [setA, getA, hp]
    · simpa [setA, getA, hp] using ih

theorem getA_setA_ne {α : Type} (l : List (String × α)) (k k' : String) (v : α)
    (hne : k' ≠ k) : getA (setA l k v) k' = getA l k' := by
  induction l with
  | nil => simp [setA, getA, Ne.symm hne]
  | cons p l ih =>
    by_cases hp : p.1 = k
    · have hp' : ¬ p.1 = k' := fun h => hne (h ▸ hp)
      simp [setA, getA, hp, hp', Ne.symm hne]
    · by_cases hp' : p.1 = k'
      · simp [setA, getA, hp, hp', hne]
      · simpa [setA, getA, hp, hp'] using ih

theorem getA_delA_self {α : Type} (l : List (String × α)) (k : String) :
    getA (delA l k) k = none := by
  induction l with
  | nil => rfl
  | cons p l ih =>
    by_cases hp : p.1 = k
    · simpa [delA, hp] using ih
    · simpa [delA, getA, hp] using ih

theorem getA_delA_ne {α : Type} (l : List (String × α)) (k k' : String)
    (hne : k' ≠ k) : getA (delA l k) k' = getA l k' := by
  induction l with
  | nil => rfl
  | cons p l ih =>
    by_cases hp : p.1 = k
    · have hp' : ¬ p.1 = k' := fun h => hne (h ▸ hp)
      simpa [delA, getA, hp, hp', Ne.symm hne] using ih
    · by_cases hp' : p.1 = k'
      · simp [delA, getA, hp, hp', hne]
      · simpa [delA, getA, hp, hp'] using ih

theorem mem_setAdd {l : List String} {w x : String} :
    x ∈ setAdd l w ↔ x ∈ l ∨ x = w := by
  unfold setAdd
  split
  · rename_i h
    constructor
    · exact Or.inl
    · rintro (hx | rfl)
      · exact hx
      · exact h
  · simp [List.mem_append]

theorem mem_usedFoldPairs (pairs : List Pair) (used : List String) (x : String) :
    x ∈ pairs.foldl
        (fun used p =>
          if p.word ≠ "" ∧ p.word ≠ noGuess then setAdd used (strLower p.word) else used)
        used ↔
      x ∈ used ∨ ∃ p ∈ pairs, p.word ≠ "" ∧ p.word ≠ noGuess ∧ strLower p.word = x := by
  induction pairs generalizing used with
  | nil => simp
  | cons q pairs ih =>
    simp only [List.foldl_cons]
    rw [ih]
    by_cases hq : q.word ≠ "" ∧ q.word ≠ noGuess
    · rw [if_pos hq]
      simp only [mem_setAdd, List.mem_cons]
      constructor
      · rintro ((hx | rfl) | ⟨p, hp, h⟩)
        · exact Or.inl hx
        · exact Or.inr ⟨q, Or.inl rfl, hq.1, hq.2, rfl⟩
        · exact Or.inr ⟨p, Or.inr hp, h⟩
      · rintro (hx | ⟨p, (rfl | hp), h1, h2, h3⟩)
        · exact Or.inl (Or.inl hx)
        · exact Or.inl (Or.inr h3.symm)
        · exact Or.inr ⟨p, hp, h1, h2, h3⟩
    · rw [if_neg hq]
      simp only [List.mem_cons]
      constructor
      · rintro (hx | ⟨p, hp, h⟩)
        · exact Or.inl hx
        · exact Or.inr ⟨p, Or.inr hp, h⟩
      · rintro (hx | ⟨p, (rfl | hp), h1, h2, h3⟩)
        · exact Or.inl hx
        · exact absurd ⟨h1, h2⟩ hq
        · exact Or.inr ⟨p, hp, h1, h2, h3⟩

theorem mem_getUsedWordsFromHistory (room : Room) (x : String) :
    x ∈ getUsedWordsFromHistory room ↔
      ∃ h ∈ room.history, ∃ p ∈ h.pairs,
        p.word ≠ "" ∧ p.word ≠ noGuess ∧ strLower p.word = x := by
  unfold getUsedWordsFromHistory
  have main : ∀ (hist : List HistoryEntry) (used : List String),
      x ∈ hist.foldl
          (fun used h =>
            h.pairs.foldl
              (fun used p =>
                if p.word ≠ "" ∧ p.word ≠ noGuess then setAdd used (strLower p.word)
                else used)
              used)
          used ↔
        x ∈ used ∨ ∃ h ∈ hist, ∃ p ∈ h.pairs,
          p.word ≠ "" ∧ p.word ≠ noGuess ∧ strLower p.word = x := by
    intro hist
    induction hist with
    | nil => simp
    | cons e hist ih =>
      intro used
      simp only [List.foldl_cons]
      rw [ih, mem_usedFoldPairs]
      simp only [List.mem_cons]
      constructor
      · rintro ((hx | ⟨p, hp, h⟩) | ⟨h, hh, rest⟩)
        · exact Or.inl hx
        · exact Or.inr ⟨e, Or.inl rfl, p, hp, h⟩
        · exact Or.inr ⟨h, Or.inr hh, rest⟩
      · rintro (hx | ⟨h, (rfl | hh), rest⟩)
        · exact Or.inl (Or.inl hx)
        · exact Or.inl (Or.inr rest)
        · exact Or.inr ⟨h, hh, rest⟩
  simpa using main room.history []

/-! ## Claim theorems -/

/-- C1: the claim states that at most one resolution occurs per round because both
resolution paths are guarded by a single-use flag set atomically before any side
effect. The code has no such flag, and the round-timer callback does not re-check the
room status after awaiting the AI call (index.js:143-147). This theorem replays the
concrete racing schedule on `c1Room`: the human submits "apple" at 30990 and the
handler suspends awaiting the AI; the round timer fires at 31000 (its guards pass)
and also suspends awaiting the AI; the submit handler's AI response arrives first and
resolves round 1 as a win; the timer callback's response then arrives and the resumed
callback appends a second history entry and re-resolves, overwriting `winnerRound`
with 2 even though only round 1 was ever started. -/
theorem C1_timer_submit_race_double_resolution :
    (submitPhase1 30990 "H1" "apple" c1Room).2 = SubmitAck.ok
    ∧ needsBotSubmission c1AfterHumanSubmit = true
    ∧ c1AfterHumanSubmit.closing = false
    ∧ c1AfterHumanSubmit.status = "playing"
    ∧ c1AfterHumanSubmit.roundTimer = some 31000
    ∧ c1AfterSubmitResolve.status = "won"
    ∧ c1AfterSubmitResolve.winnerRound = some 1
    ∧ c1AfterSubmitResolve.history.length = 1
    ∧ c1AfterTimerResume.history.length = 2
    ∧ c1AfterTimerResume.winnerRound = some 2
    ∧ c1AfterTimerResume.status = "won" := by decide

/-- C3 counterexample: the claim states that a word equal to a non-sentinel word of
the room's completed history is always rejected as this round's submission,
regardless of slot (human or AI). For the AI slot no such rejection exists:
`maybeMakeBotSubmission` records whatever the AI chain produced — here both the
"apple" fallback (AI failure) and an AI response of "apple" — as the bot's
submission for the round, although "apple" is in `c3Room`'s completed history. -/
theorem C3_counterexample :
    c3Room.botId = some "bot:C3"
    ∧ "apple" ∈ getUsedWordsFromHistory c3Room
    ∧ getA (maybeMakeBotSubmission none c3Room).submissions "bot:C3" = some "apple"
    ∧ getA (maybeMakeBotSubmission (some "apple") c3Room).submissions "bot:C3"
        = some "apple" := by decide

/-- C4 counterexample: the claim states that the context supplied to the AI adapter
is the previous round's *valid* pair (both slots real and non-empty, i.e.
non-sentinel). On `c4Room`, whose previous round timed out for the human, the
request carries the sentinel itself as the previous human word: no validity
filtering exists in `getPrevRoundWords`. -/
theorem C4_counterexample :
    botRequestOf c4Room
      = AiRequest.withPrev (some noGuess) (some "apple") ["apple"] := by decide

/-- C5 counterexample: the claim states that room creation generates a code not
currently present in the registry, retrying on collision. The handler stores the new
room unconditionally: creating a room while "AAAAAA" is already occupied by
`c5OldRoom` (which has history) replaces the existing room's registry entry with the
fresh room instead of retrying. -/
theorem C5_counterexample :
    regLookup c5Reg "AAAAAA" = some c5OldRoom
    ∧ c5OldRoom.history ≠ []
    ∧ regLookup (roomCreate "AAAAAA" 5 "S1" "Ann" c5Reg) "AAAAAA"
        = some { blankHumanRoom 5 with players := [("S1", "Ann")], afkTimer := some 70005 }
    ∧ (roomCreate "AAAAAA" 5 "S1" "Ann" c5Reg).length = 1 := by decide

/-- C8 counterexample: the claim states that after a non-win resolution the next
round starts after a nonzero fixed pause. Resolving `c8Room`'s round at instant 1000
arms the next round timer at `some 31000 = 1000 + 30000`: `startRound` runs in the
same step as the reveal, so no delay `d > 0` separates the reveal from the start of
the following round. -/
theorem C8_counterexample :
    (timerRest 1000 c8Room).status = "playing"
    ∧ (timerRest 1000 c8Room).roundTimer = some (1000 + 30000)
    ∧ ¬ ∃ d : Nat, 0 < d ∧ (timerRest 1000 c8Room).roundTimer = some (1000 + d + 30000) := by
  refine ⟨by decide, by decide, ?_⟩
  rintro ⟨d, hd, h⟩
  have hval : (timerRest 1000 c8Room).roundTimer = some 31000 := by decide
  rw [hval] at h
  have := Option.some.inj h
  omega

/-- C10 counterexample: the claim states that a human submission whose trimmed text
is literally "(no guess)" is accepted as a valid word and is never recorded in the
duplicate-exclusion set. On `c10Room`, whose completed round 1 recorded the
mixed-case "(No Guess)", the exclusion skip (`w !== "(no guess)"`, case-sensitive)
does not fire while the stored comparison is lowercased — so the used-words set
contains the lowercase sentinel and the literal "(no guess)" submission is rejected
as a duplicate. -/
theorem C10_counterexample :
    strTrim "(no guess)" = "(no guess)"
    ∧ ("(no guess)" : String) ≠ ""
    ∧ "(no guess)" ∈ getUsedWordsFromHistory c10Room
    ∧ (submitPhase1 40000 "A" "(no guess)" c10Room).2 = SubmitAck.usedEarlier
    ∧ (submitPhase1 40000 "A" "(no guess)" c10Room).1 = c10Room := by decide

/-- C2: for every resolved round of a live two-human playing room — (a) if both
slots submitted the same word case-insensitively and both words are non-sentinel and
non-empty, the submit-path resolution marks the room won with that round number,
records the words in history, and leaves no round timer armed (no further round
starts); (b) if the deadline fires with the second slot unsubmitted, that slot
resolves to the "(no guess)" sentinel and the round still advances (status stays
playing, the next round timer is armed, history grows); (c) if the deadline fires
with no submissions, both slots resolve to the sentinel and a sentinel-equals-
sentinel pair is not treated as a win (the room keeps playing), because sentinel
values fail the `allReal` part of the win comparison. -/
theorem C2_round_resolution
    (now : Nat) (room : Room) (h1 h2 n1 n2 w1 w2 : String)
    (hcl : room.closing = false) (hst : room.status = "playing")
    (hai : room.ai = false)
    (hpl : room.players = [(h1, n1), (h2, n2)])
    (hids : h1 ≠ h2)
    (hw1e : w1 ≠ "") (hw2e : w2 ≠ "")
    (hw1s : strLower w1 ≠ noGuess) (hw2s : strLower w2 ≠ noGuess)
    (heq : strLower w1 = strLower w2) :
    ((submitPhase2 now { room with submissions := [(h1, w1), (h2, w2)] }).status = "won"
     ∧ (submitPhase2 now { room with submissions := [(h1, w1), (h2, w2)] }).winnerRound
         = some (room.history.length + 1)
     ∧ (submitPhase2 now { room with submissions := [(h1, w1), (h2, w2)] }).roundTimer = none
     ∧ (submitPhase2 now { room with submissions := [(h1, w1), (h2, w2)] }).history
         = room.history ++ [{ round := room.history.length + 1,
                              pairs := [{ id := h1, name := jsOrS n1 "Player", word := w1 },
                                        { id := h2, name := jsOrS n2 "Player", word := w2 }] }])
    ∧ ((roundTimerFire now none { room with submissions := [(h1, w1)] }).status = "playing"
       ∧ (roundTimerFire now none { room with submissions := [(h1, w1)] }).roundTimer
           = some (now + 30000)
       ∧ (roundTimerFire now none { room with submissions := [(h1, w1)] }).history
           = room.history ++ [{ round := room.history.length + 1,
                                pairs := [{ id := h1, name := jsOrS n1 "Player", word := w1 },
                                          { id := h2, name := jsOrS n2 "Player", word := noGuess }] }])
    ∧ ((roundTimerFire now none { room with submissions := [] }).status = "playing"
       ∧ (roundTimerFire now none { room with submissions := [] }).roundTimer
           = some (now + 30000)
       ∧ (roundTimerFire now none { room with submissions := [] }).history
           = room.history ++ [{ round := room.history.length + 1,
                                pairs := [{ id := h1, name := jsOrS n1 "Player", word := noGuess },
                                          { id := h2, name := jsOrS n2 "Player", word := noGuess }] }]) := by
  have hng : strLower noGuess = noGuess := by decide
  have hnge : noGuess ≠ "" := by decide
  refine ⟨?_, ?_, ?_⟩
  · simp [submitPhase2, submitPairs, getA, hpl, hids, clearRoundTimer, winCheck, allReal,
      uniqueLower, setAdd, hw1e, hw2e, hw1s, hw2s, heq, Ne.symm hids]
  · simp [roundTimerFire, hcl, hst, hai, needsBotSubmission, timerRest, timerPairs, getA,
      hpl, hids, Ne.symm hids, jsOrS, hw1e, winCheck, allReal, hng, startRound,
      clearRoundTimer]
  · simp [roundTimerFire, hcl, hst, hai, needsBotSubmission, timerRest, timerPairs, getA,
      hpl, winCheck, allReal, hng, startRound, clearRoundTimer]

/-- C2 witness: `C2_round_resolution` applied to the concrete room `c2Room` with the
case-insensitively equal pair "Tree"/"tree". -/
theorem C2_round_resolution_witness :
    (submitPhase2 30000 { c2Room with submissions := [("A", "Tree"), ("B", "tree")] }).status
      = "won"
    ∧ (submitPhase2 30000 { c2Room with submissions := [("A", "Tree"), ("B", "tree")] }).winnerRound
        = some (c2Room.history.length + 1)
    ∧ (roundTimerFire 30000 none { c2Room with submissions := [("A", "Tree")] }).status
        = "playing"
    ∧ (roundTimerFire 30000 none { c2Room with submissions := [] }).status = "playing" := by
  obtain ⟨ha, hb, hc⟩ := C2_round_resolution 30000 c2Room "A" "B" "Ann" "Ben" "Tree" "tree"
    rfl rfl rfl rfl (by decide) (by decide) (by decide) (by decide) (by decide) (by decide)
  exact ⟨ha.1, ha.2.1, hb.1, hc.1⟩

/-- C3 (amended): a **human** submission whose trimmed word equals, case-
insensitively, a non-sentinel word of a previously completed round is rejected with
a "used earlier" error and mutates nothing, while a word not in the completed
history is accepted and recorded (so matching the partner's live submission of the
current round is allowed, since the duplicate check consults only `history`); the
**AI** slot's word, by contrast, is recorded by `maybeMakeBotSubmission` without any
check against the history — the used words are only sent to the external service as
an exclusion hint. -/
theorem C3_duplicate_policy
    (now : Nat) (senderId word : String) (room : Room)
    (hcl : room.closing = false) (hst : room.status = "playing")
    (hin : room.players.any (fun p => p.1 = senderId) = true)
    (hne : strTrim word ≠ "") :
    (strLower (strTrim word) ∈ getUsedWordsFromHistory room →
        submitPhase1 now senderId word room = (room, SubmitAck.usedEarlier))
    ∧ (strLower (strTrim word) ∉ getUsedWordsFromHistory room →
        (submitPhase1 now senderId word room).2 = SubmitAck.ok
        ∧ getA (submitPhase1 now senderId word room).1.submissions senderId
            = some (strTrim word)
        ∧ (submitPhase1 now senderId word room).1.history = room.history)
    ∧ (∀ choice r, getA (maybeMakeBotSubmission choice r).submissions (r.botId.getD "")
        = some (botWordOf choice)) := by
  refine ⟨?_, ?_, ?_⟩
  · intro hdup
    simp [submitPhase1, hcl, hst, hin, hne, hdup]
  · intro hdup
    simp [submitPhase1, hcl, hst, hin, hne, hdup, bumpAfkRoom, getA_setA_self]
  · intro choice r
    simp [maybeMakeBotSubmission, getA_setA_self]

/-- C4 (amended): the context supplied to the AI adapter is exactly the previous
round's *recorded* pair — the words of the last history entry verbatim, which may
include the "(no guess)" sentinel; no validity filtering exists. It never reads the
current round's in-flight submissions (both `getPrevRoundWords` and
`getUsedWordsFromHistory` are invariant under the `submissions` field), and the
exclude list is exactly the set of lowercased non-sentinel words of completed
rounds. -/
theorem C4_ai_context
    (room : Room) (hs : List HistoryEntry) (n : Nat)
    (hid bid hn bn hw bw : String)
    (hhist : room.history = hs ++ [{ round := n,
                                     pairs := [{ id := hid, name := hn, word := hw },
                                               { id := bid, name := bn, word := bw }] }])
    (hbot : room.botId = some bid)
    (hne : bid ≠ hid)
    (hwne : hw ≠ "") :
    (∀ subs, getPrevRoundWords { room with submissions := subs } = getPrevRoundWords room)
    ∧ (∀ subs, getUsedWordsFromHistory { room with submissions := subs }
        = getUsedWordsFromHistory room)
    ∧ getPrevRoundWords room = (some hw, some bw)
    ∧ botRequestOf room
        = AiRequest.withPrev (some hw) (some bw) (getUsedWordsFromHistory room)
    ∧ (∀ x, x ∈ getUsedWordsFromHistory room ↔
        ∃ h ∈ room.history, ∃ p ∈ h.pairs,
          p.word ≠ "" ∧ p.word ≠ noGuess ∧ strLower p.word = x) := by
  have hprev : getPrevRoundWords room = (some hw, some bw) := by
    unfold getPrevRoundWords
    rw [hhist, List.getLast?_concat]
    simp [hbot, hne]
  refine ⟨fun subs => rfl, fun subs => rfl, hprev, ?_, fun x => mem_getUsedWordsFromHistory room x⟩
  unfold botRequestOf
  rw [hprev]
  simp [jsTruthyO, hwne]

/-- C3 witness: `C3_duplicate_policy` applied to `c3RoomW` — "River" (used in round
1) is rejected, "Echo" is accepted and recorded although the partner's live word of
the current round is "echo" (the case-insensitive match that wins). -/
theorem C3_duplicate_policy_witness :
    submitPhase1 40000 "A" "River" c3RoomW = (c3RoomW, SubmitAck.usedEarlier)
    ∧ (submitPhase1 40000 "A" "Echo" c3RoomW).2 = SubmitAck.ok
    ∧ getA (submitPhase1 40000 "A" "Echo" c3RoomW).1.submissions "A" = some (strTrim "Echo")
    ∧ getA c3RoomW.submissions "B" = some "echo"
    ∧ strLower (strTrim "Echo") = strLower "echo" := by
  have hdup := (C3_duplicate_policy 40000 "A" "River" c3RoomW rfl rfl (by decide)
    (by decide)).1 (by decide)
  have hok := (C3_duplicate_policy 40000 "A" "Echo" c3RoomW rfl rfl (by decide)
    (by decide)).2.1 (by decide)
  exact ⟨hdup, hok.1, hok.2.1, by decide, by decide⟩

/-- C4 witness: `C4_ai_context` applied to `c4Room`, whose previous round recorded
the sentinel for the human slot. -/
theorem C4_ai_context_witness :
    botRequestOf c4Room
      = AiRequest.withPrev (some "(no guess)") (some "apple") (getUsedWordsFromHistory c4Room)
    ∧ getUsedWordsFromHistory c4Room = ["apple"]
    ∧ getPrevRoundWords c4Room = (some "(no guess)", some "apple") := by
  have h := C4_ai_context c4Room [] 1 "H" "bot:C4" "Ann" "AI" "(no guess)" "apple"
    (by decide) rfl (by decide) (by decide)
  exact ⟨h.2.2.2.1, by decide, h.2.2.1⟩

/-- Membership in the key list after a `setA` assignment. -/
theorem mem_keys_setA {α : Type} {l : List (String × α)} {k x : String} {v : α} :
    x ∈ (setA l k v).map (fun p => p.1) ↔ x ∈ l.map (fun p => p.1) ∨ x = k := by
  induction l with
  | nil => simp [setA]
  | cons p l ih =>
    by_cases hp : p.1 = k
    · simp [setA, hp]
      tauto
    · simp [setA, hp, ih]
      tauto

/-- A `setA` assignment preserves key uniqueness of the association list. -/
theorem nodup_keys_setA {α : Type} {l : List (String × α)} {k : String} {v : α}
    (h : (l.map (fun p => p.1)).Nodup) : ((setA l k v).map (fun p => p.1)).Nodup := by
  induction l with
  | nil => simp [setA]
  | cons p l ih =>
    rw [List.map_cons, List.nodup_cons] at h
    by_cases hp : p.1 = k
    · rw [show setA (p :: l) k v = (k, v) :: l from by simp [setA, hp], List.map_cons,
        List.nodup_cons]
      exact ⟨hp ▸ h.1, h.2⟩
    · rw [show setA (p :: l) k v = p :: setA l k v from by simp [setA, hp], List.map_cons,
        List.nodup_cons]
      constructor
      · rw [mem_keys_setA]
        rintro (hmem | heq)
        · exact h.1 hmem
        · exact hp heq
      · exact ih h.2

/-- C5 (amended): the `room:create` handler inserts the freshly initialised room at
the generated code *unconditionally* — the registry entry at that code afterwards
is always the new room (so an occupied code is overwritten rather than retried, cf.
the counterexample) — and, the registry being a map, key uniqueness is preserved:
no two registry entries ever share a code. -/
theorem C5_room_create (reg : Registry) (code : String) (now : Nat) (sid nm : String)
    (hnd : (reg.map (fun p => p.1)).Nodup) :
    regLookup (roomCreate code now sid nm reg) code
      = some (bumpAfkRoom now
          { blankHumanRoom now with players := [(sid, jsOrS (strTrim nm) "Player")] })
    ∧ ((roomCreate code now sid nm reg).map (fun p => p.1)).Nodup := by
  constructor
  · simp [roomCreate, regLookup, getA_setA_self, blankHumanRoom, setA, bumpAfkRoom]
  · simp only [roomCreate, regLookup, getA_setA_self]
    simp only [blankHumanRoom]
    exact nodup_keys_setA (nodup_keys_setA (nodup_keys_setA hnd))

/-- A sweep step never re-adds a registry entry. -/
theorem sweepStep_lookup_none (now : Nat) (acc : Registry) (c c' : String)
    (h : regLookup acc c = none) : regLookup (sweepStep now acc c') c = none := by
  unfold sweepStep
  cases hl : regLookup acc c' with
  | none => exact h
  | some r =>
    have hcc : ¬ c = c' := fun e => by rw [e, hl] at h; cases h
    have hclose : regLookup (closeRoom c' acc).1 c = none := by
      unfold closeRoom
      rw [hl]
      exact (getA_delA_ne acc c' c hcc).trans h
    dsimp only
    split_ifs <;> first | exact h | exact hclose

/-- A sweep step for one code leaves every other code's entry unchanged. -/
theorem sweepStep_lookup_ne (now : Nat) (acc : Registry) (c c' : String)
    (hcc : ¬ c = c') : regLookup (sweepStep now acc c') c = regLookup acc c := by
  unfold sweepStep
  cases hl : regLookup acc c' with
  | none => rfl
  | some r =>
    have hclose : regLookup (closeRoom c' acc).1 c = regLookup acc c := by
      unfold closeRoom
      rw [hl]
      exact getA_delA_ne acc c' c hcc
    dsimp only
    split_ifs <;> first | rfl | exact hclose

/-- The sweep step for a live, non-won room idle for the full window deletes its
registry entry. -/
theorem sweepStep_closes (now : Nat) (acc : Registry) (c : String) (room : Room)
    (h : regLookup acc c = some room) (h1 : room.closing = false)
    (h2 : room.status ≠ "won") (h3 : 70000 ≤ now - room.lastActivity) :
    regLookup (sweepStep now acc c) c = none := by
  unfold sweepStep
  rw [h]
  have hg : getA acc c = some room := h
  simp [h1, h2, h3, closeRoom, hg, regLookup, getA_delA_self]

/-- Folding sweep steps never re-adds a registry entry. -/
theorem foldl_sweep_none (now : Nat) (codes : List String) :
    ∀ (acc : Registry) (c : String), regLookup acc c = none →
      regLookup (codes.foldl (sweepStep now) acc) c = none := by
  induction codes with
  | nil => intro acc c h; exact h
  | cons d codes ih =>
    intro acc c h
    exact ih _ _ (sweepStep_lookup_none now acc c d h)

/-- Folding the sweep steps over a code list containing an idle live non-won room's
code removes that room. -/
theorem foldl_sweep_closes (now : Nat) (c : String) (room : Room)
    (h1 : room.closing = false) (h2 : room.status ≠ "won")
    (h3 : 70000 ≤ now - room.lastActivity) :
    ∀ (codes : List String) (acc : Registry), regLookup acc c = some room → c ∈ codes →
      regLookup (codes.foldl (sweepStep now) acc) c = none := by
  intro codes
  induction codes with
  | nil => intro acc _ hmem; cases hmem
  | cons d codes ih =>
    intro acc hacc hmem
    by_cases hdc : c = d
    · subst hdc
      exact foldl_sweep_none now codes _ c (sweepStep_closes now acc c room hacc h1 h2 h3)
    · have hstep : regLookup (sweepStep now acc d) c = some room := by
        rw [sweepStep_lookup_ne now acc c d hdc]; exact hacc
      rcases List.mem_cons.mp hmem with he | hm
      · exact absurd he hdc
      · exact ih _ hstep hm

/-- A successful lookup witnesses key membership. -/
theorem mem_keys_of_getA_some {α : Type} {l : List (String × α)} {k : String} {v : α}
    (h : getA l k = some v) : k ∈ l.map (fun p => p.1) := by
  induction l with
  | nil => cases h
  | cons p l ih =>
    by_cases hp : p.1 = k
    · simp [hp]
    · simp only [getA] at h
      rw [if_neg hp] at h
      simpa using Or.inr (ih h)

/-- C6: a room idle for the full 70 s inactivity window (live and not won) is
removed from the registry by the AFK sweep, and likewise by its own AFK timer
callback; teardown leaves no zombie state — the torn-down room value has `closing`
set and both timers cancelled, and the registry entry is gone; a submission
arriving for that room code after closure is acknowledged with "No room" and
mutates nothing. -/
theorem C6_inactivity_teardown
    (reg : Registry) (code : String) (room : Room) (now : Nat)
    (hlk : regLookup reg code = some room)
    (hcl : room.closing = false)
    (hw : room.status ≠ "won")
    (hidle : 70000 ≤ now - room.lastActivity) :
    regLookup (afkSweep now reg) code = none
    ∧ regLookup (afkTimerFire code reg) code = none
    ∧ (closeRoom code reg).2
        = some { room with closing := true, roundTimer := none, deadline := none,
                           afkTimer := none }
    ∧ (∀ (n2 : Nat) (sid w : String) (choice : Option String),
        gameSubmitReg n2 code sid w choice (afkSweep now reg)
          = (afkSweep now reg, SubmitAck.noRoom)) := by
  have hsweep : regLookup (afkSweep now reg) code = none := by
    unfold afkSweep
    exact foldl_sweep_closes now code room hcl hw hidle _ reg hlk (mem_keys_of_getA_some hlk)
  refine ⟨hsweep, ?_, ?_, ?_⟩
  · unfold afkTimerFire
    rw [hlk]
    have hg : getA reg code = some room := hlk
    simp [hcl, hw, closeRoom, hg, regLookup, getA_delA_self]
  · unfold closeRoom
    rw [hlk]
    simp [clearAfk, clearRoundTimer]
  · intro n2 sid w choice
    unfold gameSubmitReg
    rw [hsweep]

/-- A sweep step never closes a won room. -/
theorem sweepStep_keeps_won (now : Nat) (acc : Registry) (c c' : String) (room : Room)
    (h : regLookup acc c = some room) (hwon : room.status = "won") :
    regLookup (sweepStep now acc c') c = some room := by
  by_cases hcc : c = c'
  · subst hcc
    unfold sweepStep
    rw [h]
    by_cases hc : room.closing
    · simp [hc]; exact h
    · simp [hc, hwon]; exact h
  · rw [sweepStep_lookup_ne now acc c c' hcc]
    exact h

/-- Folding the sweep steps keeps every won room's registry entry intact. -/
theorem foldl_sweep_keeps_won (now : Nat) (c : String) (room : Room)
    (hwon : room.status = "won") :
    ∀ (codes : List String) (acc : Registry), regLookup acc c = some room →
      regLookup (codes.foldl (sweepStep now) acc) c = some room := by
  intro codes
  induction codes with
  | nil => intro acc h; exact h
  | cons d codes ih =>
    intro acc h
    exact ih _ (sweepStep_keeps_won now acc c d room h hwon)

/-- C9: a room whose status is `won` is never closed by the inactivity monitor —
the per-room AFK timer callback leaves the whole registry unchanged, and the
periodic AFK sweep keeps the won room's entry, no matter how stale its
`lastActivity` is. -/
theorem C9_won_room_immune
    (reg : Registry) (code : String) (room : Room) (now : Nat)
    (hlk : regLookup reg code = some room)
    (hwon : room.status = "won") :
    afkTimerFire code reg = reg
    ∧ regLookup (afkSweep now reg) code = some room := by
  constructor
  · unfold afkTimerFire
    rw [hlk]
    by_cases hc : room.closing <;> simp [hc, hwon]
  · unfold afkSweep
    exact foldl_sweep_keeps_won now code room hwon _ reg hlk

/-- C7: while a room is won and live, a rematch restart occurs exactly when the
ballot reaches the required parties: in an AI room any single human ready signal
restarts immediately; in a two-human room the sender is added to the ballot and the
room restarts exactly when the ballot size reaches 2 (otherwise the room stays won
with its history intact). A restart resets the room to `playing` at round 1 —
empty history (so the next round number is 1), cleared submissions and ballot, no
winner — with a freshly armed round timer. -/
theorem C7_rematch
    (now : Nat) (sid : String) (room : Room)
    (hcl : room.closing = false) (hst : room.status = "won") :
    (room.ai = true →
        (rematchReadyHandler now sid room).status = "playing"
        ∧ (rematchReadyHandler now sid room).history = []
        ∧ (rematchReadyHandler now sid room).submissions = []
        ∧ (rematchReadyHandler now sid room).winnerRound = none
        ∧ (rematchReadyHandler now sid room).roundTimer = some (now + 30000))
    ∧ (room.ai = false → room.players.length = 2 →
        ((setAdd room.rematchReady sid).length = 2 →
            (rematchReadyHandler now sid room).status = "playing"
            ∧ (rematchReadyHandler now sid room).history = []
            ∧ (rematchReadyHandler now sid room).submissions = []
            ∧ (rematchReadyHandler now sid room).winnerRound = none
            ∧ (rematchReadyHandler now sid room).roundTimer = some (now + 30000))
        ∧ ((setAdd room.rematchReady sid).length ≠ 2 →
            (rematchReadyHandler now sid room).status = "won"
            ∧ (rematchReadyHandler now sid room).history = room.history
            ∧ (rematchReadyHandler now sid room).roundTimer = room.roundTimer
            ∧ (rematchReadyHandler now sid room).rematchReady
                = setAdd room.rematchReady sid)) := by
  constructor
  · intro hai
    simp [rematchReadyHandler, hcl, hst, hai, startRound, clearRoundTimer]
  · intro hai hpl
    constructor
    · intro hsz
      simp [rematchReadyHandler, hcl, hst, hai, hpl, bumpAfkRoom, hsz, startRound,
        clearRoundTimer]
    · intro hsz
      simp [rematchReadyHandler, hcl, hst, hai, hpl, bumpAfkRoom, hsz, startRound]

/-- C7 witness: `C7_rematch` applied to the won AI room `c7AiRoom` (one vote
restarts) and the won human room `c7HumanRoom` (the second vote restarts, a
repeated first vote does not). -/
theorem C7_rematch_witness :
    (rematchReadyHandler 8000 "H" c7AiRoom).status = "playing"
    ∧ (rematchReadyHandler 8000 "H" c7AiRoom).history = []
    ∧ (rematchReadyHandler 8000 "H" c7AiRoom).roundTimer = some (8000 + 30000)
    ∧ (rematchReadyHandler 8000 "B" c7HumanRoom).status = "playing"
    ∧ (rematchReadyHandler 8000 "B" c7HumanRoom).history = []
    ∧ (rematchReadyHandler 8000 "A" c7HumanRoom).status = "won" := by
  have hai := (C7_rematch 8000 "H" c7AiRoom rfl rfl).1 rfl
  have hb := ((C7_rematch 8000 "B" c7HumanRoom rfl rfl).2 rfl rfl).1 (by decide)
  have ha := ((C7_rematch 8000 "A" c7HumanRoom rfl rfl).2 rfl rfl).2 (by decide)
  exact ⟨hai.1, hai.2.1, hai.2.2.2.2, hb.1, hb.2.1, ha.1⟩

/-- C8 (amended): after a round resolves without a win — on either the timeout
path or the submit path — the next round starts immediately within the same
resolution step: the new round timer is armed at the resolution instant for the
full 30 s duration, with no reveal pause in between. -/
theorem C8_next_round_immediate
    (now : Nat) (room : Room)
    (hcl : room.closing = false) (hst : room.status = "playing")
    (hnw1 : winCheck (timerPairs room) = false)
    (hnw2 : winCheck (submitPairs room) = false)
    (hcnt : room.submissions.length = room.players.length) :
    ((timerRest now room).status = "playing"
     ∧ (timerRest now room).roundTimer = some (now + 30000))
    ∧ ((submitPhase2 now room).status = "playing"
       ∧ (submitPhase2 now room).roundTimer = some (now + 30000)) := by
  constructor
  · simp [timerRest, hnw1, startRound, hcl, hst, clearRoundTimer]
  · simp [submitPhase2, hcnt, hnw2, startRound, hcl, hst, clearRoundTimer]

/-- C8 witness: `C8_next_round_immediate` applied to `c8Room` with both words
submitted and non-matching. -/
theorem C8_next_round_immediate_witness :
    ((timerRest 1000 { c8Room with submissions := [("A", "alpha"), ("B", "beta")] }).status
       = "playing"
     ∧ (timerRest 1000 { c8Room with submissions := [("A", "alpha"), ("B", "beta")] }).roundTimer
         = some (1000 + 30000))
    ∧ ((submitPhase2 1000 { c8Room with submissions := [("A", "alpha"), ("B", "beta")] }).status
         = "playing"
       ∧ (submitPhase2 1000 { c8Room with submissions := [("A", "alpha"), ("B", "beta")] }).roundTimer
           = some (1000 + 30000)) := by
  exact C8_next_round_immediate 1000 { c8Room with submissions := [("A", "alpha"), ("B", "beta")] }
    rfl rfl (by decide) (by decide) (by decide)

/-- C10 (amended): a human submission of the literal "(no guess)" is accepted and
recorded whenever the lowercase sentinel is not in the room's used-words set (which,
by the last conjunct, can only contain it if a *differently-cased* variant of the
sentinel was recorded in history: words equal to the exact sentinel are always
omitted from the exclusion set and hence from later duplicate checks); once present
in a round's pairs, any word that lowercases to the sentinel makes the win check
fail, so it is excluded from the win comparison. -/
theorem C10_sentinel_handling
    (now : Nat) (sid : String) (room : Room)
    (hcl : room.closing = false) (hst : room.status = "playing")
    (hin : room.players.any (fun p => p.1 = sid) = true)
    (hnd : noGuess ∉ getUsedWordsFromHistory room) :
    ((submitPhase1 now sid "(no guess)" room).2 = SubmitAck.ok
     ∧ getA (submitPhase1 now sid "(no guess)" room).1.submissions sid = some "(no guess)")
    ∧ (∀ pairs : List Pair, (∃ p ∈ pairs, strLower p.word = noGuess) → winCheck pairs = false)
    ∧ (∀ (r : Room) (x : String), x ∈ getUsedWordsFromHistory r →
        ∃ h ∈ r.history, ∃ p ∈ h.pairs,
          p.word ≠ "" ∧ p.word ≠ noGuess ∧ strLower p.word = x) := by
  refine ⟨?_, ?_, ?_⟩
  · have htrim : strTrim "(no guess)" = "(no guess)" := by decide
    have hlow : strLower "(no guess)" = noGuess := by decide
    have hnd' : strLower "(no guess)" ∉ getUsedWordsFromHistory room := by
      rw [hlow]; exact hnd
    simp [submitPhase1, htrim, hcl, hst, hin, hnd', bumpAfkRoom, getA_setA_self]
  · rintro pairs ⟨p, hp, hlow⟩
    have hfail : allReal pairs = false := by
      unfold allReal
      rw [← Bool.not_eq_true, List.all_eq_true]
      intro hall
      have h2 := hall p hp
      simp [hlow] at h2
    simp [winCheck, hfail]
  · intro r x hx
    exact (mem_getUsedWordsFromHistory r x).mp hx

/-- C10 witness: `C10_sentinel_handling` applied to `c10RoomW`, whose history
contains only the exact-case sentinel and "tree". -/
theorem C10_sentinel_handling_witness :
    (submitPhase1 40000 "A" "(no guess)" c10RoomW).2 = SubmitAck.ok
    ∧ getA (submitPhase1 40000 "A" "(no guess)" c10RoomW).1.submissions "A"
        = some "(no guess)"
    ∧ winCheck [{ id := "A", name := "Ann", word := "(no guess)" },
                { id := "B", name := "Ben", word := "(no guess)" }] = false := by
  have h := C10_sentinel_handling 40000 "A" c10RoomW rfl rfl (by decide) (by decide)
  refine ⟨h.1.1, h.1.2, ?_⟩
  exact h.2.1 _ ⟨{ id := "A", name := "Ann", word := "(no guess)" }, by decide, by decide⟩

/-- C5 witness: `C5_room_create` applied to the registry `c5Reg` with a fresh
code. -/
theorem C5_room_create_witness :
    regLookup (roomCreate "FRESH1" 9 "S9" "Zoe" c5Reg) "FRESH1"
      = some (bumpAfkRoom 9
          { blankHumanRoom 9 with players := [("S9", jsOrS (strTrim "Zoe") "Player")] })
    ∧ ((roomCreate "FRESH1" 9 "S9" "Zoe" c5Reg).map (fun p => p.1)).Nodup := by
  exact C5_room_create c5Reg "FRESH1" 9 "S9" "Zoe" (by decide)

/-- C6 witness: `C6_inactivity_teardown` applied to the registry `c6Reg` holding
the idle lobby room `c6Room` at instant 70100. -/
theorem C6_inactivity_teardown_witness :
    regLookup (afkSweep 70100 c6Reg) "ROOM66" = none
    ∧ regLookup (afkTimerFire "ROOM66" c6Reg) "ROOM66" = none
    ∧ gameSubmitReg 71000 "ROOM66" "A" "word" none (afkSweep 70100 c6Reg)
        = (afkSweep 70100 c6Reg, SubmitAck.noRoom) := by
  have h := C6_inactivity_teardown c6Reg "ROOM66" c6Room 70100 (by decide) rfl (by decide)
    (by decide)
  exact ⟨h.1, h.2.1, h.2.2.2 71000 "A" "word" none⟩

/-- C9 witness: `C9_won_room_immune` applied to `c9Reg`, whose won room has been
idle far beyond the inactivity window at the sweep instant. -/
theorem C9_won_room_immune_witness :
    afkTimerFire "WINNER" c9Reg = c9Reg
    ∧ regLookup (afkSweep 1000000 c9Reg) "WINNER" = some c9Room := by
  exact C9_won_room_immune c9Reg "WINNER" c9Room 1000000 (by decide) rfl
